import Mathlib

/-!
# Shareway backend: chat repository, payment controller and route helper

A shallow embedding of

* `repository/chat_repo.go` : the chat repository over an explicit store state,
* `controller/payment_controller.go` : the two payment handlers as functions of
  the outcomes of their collaborators,
* `helper/map.go` : `OptimizeRoutePoints`,

followed by the properties checked against them.

The storage layer (GORM over SQL) is not part of the sources; a table is a list
of rows, `First` is "smallest primary key among the matching rows", `Create`
appends a row under the primary-key constraint, `Updates`/`Save` rewrite the
matching rows.
-/

namespace Shareway

/-! ## Identities, time, errors -/

/-- The type `uuid.UUID`: sixteen bytes, read here as one big-endian number. -/
structure UUID where
  val : Fin (2 ^ 128)
  deriving DecidableEq, Repr

/-- The zero value `uuid.Nil`. -/
def UUID.Nil : UUID := ⟨0⟩

/-- Primary keys are ordered as the store orders them, byte by byte. -/
instance : LT UUID := ⟨fun a b => a.val < b.val⟩

instance (a b : UUID) : Decidable (a < b) :=
  inferInstanceAs (Decidable (a.val < b.val))

/-- One lowercase hexadecimal digit, as `encoding/hex` writes it. -/
def hexDigit (n : Nat) : Char :=
  if n < 10 then Char.ofNat (48 + n) else Char.ofNat (87 + n)

/-- The `i`-th (from the left, `0 ≤ i < 32`) hexadecimal digit of a UUID. -/
def UUID.nibble (u : UUID) (i : Nat) : Char :=
  hexDigit ((u.val.val / 16 ^ (31 - i)) % 16)

/-- The hexadecimal digits `lo, lo+1, .., lo+len-1` of a UUID. -/
def UUID.hexRange (u : UUID) (lo len : Nat) : List Char :=
  (List.range len).map (fun k => u.nibble (lo + k))

/-- The method `UUID.String()`: the form `xxxxxxxx-xxxx-xxxx-xxxx-xxxxxxxxxxxx`. -/
def UUID.String (u : UUID) : String :=
  String.mk (u.hexRange 0 8 ++ '-' :: u.hexRange 8 4 ++ '-' :: u.hexRange 12 4
    ++ '-' :: u.hexRange 16 4 ++ '-' :: u.hexRange 20 12)

/-- The comparison `<` of Go strings: lexicographic, character by character. -/
def strLt : List Char → List Char → Bool
  | [], [] => false
  | [], _ :: _ => true
  | _ :: _, [] => false
  | a :: as, b :: bs =>
    if a.toNat < b.toNat then true
    else if b.toNat < a.toNat then false
    else strLt as bs

/-- An instant (`time.Time`), as a count of clock ticks. -/
abbrev Time := Nat

/-- The errors the embedded code can hand back. -/
inductive Error where
  | ErrRecordNotFound
  | ErrDuplicatedKey
  | InvalidUUID
  | Other (msg : String)
  deriving DecidableEq, Repr

deriving instance DecidableEq for Except

/-! ## Rows (`migration.Room`, `migration.Chat`), with the columns the code touches -/

/-- A row of the rooms table. -/
structure Room where
  ID : UUID
  User1ID : UUID
  User2ID : UUID
  LastMessageID : UUID
  LastMessageText : String
  LastMessageAt : Time
  deriving DecidableEq, Repr

/-- A row of the chats table. -/
structure Chat where
  ID : UUID
  RoomID : UUID
  SenderID : UUID
  ReceiverID : UUID
  Message : String
  MessageType : String
  CreatedAt : Time
  deriving DecidableEq, Repr

/-- The store state: the two tables the chat repository reads and writes. -/
structure DB where
  rooms : List Room
  chats : List Chat
  deriving DecidableEq, Repr

/-! ## Request payloads (`schemas.*`), with the fields the code reads -/

structure SendMessageRequest where
  ReceiverID : UUID
  Message : String
  deriving DecidableEq, Repr

structure SendImageRequest where
  ReceiverID : String
  deriving DecidableEq, Repr

structure GetChatMessagesRequest where
  ChatRoomID : UUID
  deriving DecidableEq, Repr

structure UpdateCallStatusRequest where
  CallID : UUID
  ChatRoomID : UUID
  CallType : String
  Duration : Int
  deriving DecidableEq, Repr

structure InitiateCallRequest where
  ChatRoomID : String
  ReceiverID : String
  deriving DecidableEq, Repr

/-! ## Storage primitives -/

/-- The query `First` on rooms: of the given rows, the one with the smallest
primary key (the earliest such row when keys repeat). -/
def firstRoom : List Room → Option Room
  | [] => none
  | r :: rs =>
    match firstRoom rs with
    | none => some r
    | some b => if b.ID < r.ID then some b else some r

/-- The query `First` on chats: of the given rows, the one with the smallest
primary key. -/
def firstChat : List Chat → Option Chat
  | [] => none
  | c :: cs =>
    match firstChat cs with
    | none => some c
    | some b => if b.ID < c.ID then some b else some c

/-- The statement `Create(&newChat)`: the store assigns the primary key `newID`
and the creation time `now`; a primary key already present is refused. -/
def createChat (db : DB) (c : Chat) (newID : UUID) (now : Time) : Except Error (Chat × DB) :=
  if db.chats.any (fun x => x.ID = newID) then
    .error .ErrDuplicatedKey
  else
    let saved : Chat := { c with ID := newID, CreatedAt := now }
    .ok (saved, { db with chats := db.chats ++ [saved] })

/-- The statement `Model(&Room{}).Where("id = ?", id).Updates(last_message_*)`. -/
def updateLastMessage (db : DB) (id : UUID) (msgID : UUID) (text : String) (tm : Time) : DB :=
  { db with rooms := db.rooms.map (fun r =>
      if r.ID = id then
        { r with LastMessageID := msgID, LastMessageText := text, LastMessageAt := tm }
      else r) }

/-- The statement `Save(&chat)` for a row read from the store: the row with
that primary key is overwritten. -/
def saveChat (db : DB) (c : Chat) : DB :=
  { db with chats := db.chats.map (fun x => if x.ID = c.ID then c else x) }

/-! ## `ChatRepository` -/

/-- The method `ChatRepository.GetChatRoomByUserIDs`. -/
def GetChatRoomByUserIDs (db : DB) (userID1 userID2 : UUID) : Except Error Room :=
  -- Ensure user IDs are in a consistent order
  let p : UUID × UUID :=
    if strLt userID2.String.data userID1.String.data then (userID2, userID1) else (userID1, userID2)
  -- Check if the chat room already exists
  match firstRoom (db.rooms.filter (fun r =>
      (r.User1ID = p.1 ∧ r.User2ID = p.2) ∨ (r.User1ID = p.2 ∧ r.User2ID = p.1))) with
  | none => .error .ErrRecordNotFound
  | some room => .ok room

/-- The method `RideService.GetChatRoomByUserIDs`: a plain delegation to the
ride repository, which is handed in as `repo`. -/
def RideService.GetChatRoomByUserIDs (repo : UUID → UUID → Except Error Room)
    (userID1 userID2 : UUID) : Except Error Room :=
  repo userID1 userID2

/-- The method `ChatRepository.SendMessage`; the result pairs what the caller
gets with the store state left behind. -/
def SendMessage (db : DB) (req : SendMessageRequest) (userID : UUID) (newID : UUID) (now : Time) :
    Except Error Chat × DB :=
  -- Retrieve the chat room
  match GetChatRoomByUserIDs db userID req.ReceiverID with
  | .error e => (.error e, db)
  | .ok chat =>
    -- Create a new chat message
    let newChat : Chat :=
      { ID := UUID.Nil, RoomID := chat.ID, SenderID := userID, ReceiverID := req.ReceiverID,
        Message := req.Message, MessageType := "text", CreatedAt := 0 }
    -- Save the chat message
    match createChat db newChat newID now with
    | .error e => (.error e, db)
    | .ok (newChat, db1) =>
      -- Update the chat room with the last message ID and message content
      (.ok newChat, updateLastMessage db1 chat.ID newChat.ID newChat.Message newChat.CreatedAt)

/-- The method `ChatRepository.UploadImage`; `uuidParse` stands for `uuid.Parse`. -/
def UploadImage (uuidParse : String → Except Error UUID) (db : DB) (req : SendImageRequest)
    (userID : UUID) (imageURL : String) (newID : UUID) (now : Time) : Except Error Chat × DB :=
  -- Parse the receiver ID
  match uuidParse req.ReceiverID with
  | .error e => (.error e, db)
  | .ok receiverID =>
    -- Retrieve the chat room
    match GetChatRoomByUserIDs db userID receiverID with
    | .error e => (.error e, db)
    | .ok chat =>
      let newChat : Chat :=
        { ID := UUID.Nil, RoomID := chat.ID, SenderID := userID, ReceiverID := receiverID,
          Message := imageURL, MessageType := "image", CreatedAt := 0 }
      match createChat db newChat newID now with
      | .error e => (.error e, db)
      | .ok (newChat, db1) =>
        (.ok newChat, updateLastMessage db1 chat.ID newChat.ID "Hình ảnh" newChat.CreatedAt)

/-- The method `ChatRepository.GetAllChatRooms`. -/
def GetAllChatRooms (db : DB) (userID : UUID) : Except Error (List Room) × DB :=
  (.ok (db.rooms.filter (fun r => r.User1ID = userID ∨ r.User2ID = userID)), db)

/-- The method `ChatRepository.GetChatMessages`: the rows of the room, ordered
by `created_at ASC`. -/
def GetChatMessages (db : DB) (req : GetChatMessagesRequest) (_userID : UUID) :
    Except Error (List Chat) × DB :=
  (.ok ((db.chats.filter (fun c => c.RoomID = req.ChatRoomID)).insertionSort
      (fun a b => a.CreatedAt ≤ b.CreatedAt)), db)

/-! ## Call-duration text (`fmt.Sprintf`, `strings.TrimSpace`) -/

/-- The predicate `unicode.IsSpace`. -/
def isSpace (c : Char) : Bool :=
  let n := c.toNat
  (9 ≤ n ∧ n ≤ 13) ∨ n = 0x20 ∨ n = 0x85 ∨ n = 0xA0 ∨ n = 0x1680 ∨ (0x2000 ≤ n ∧ n ≤ 0x200A)
    ∨ n = 0x2028 ∨ n = 0x2029 ∨ n = 0x202F ∨ n = 0x205F ∨ n = 0x3000

/-- The white space cut off both ends of a list of characters. -/
def trimChars (l : List Char) : List Char :=
  ((l.dropWhile isSpace).reverse.dropWhile isSpace).reverse

/-- The function `strings.TrimSpace`. -/
def TrimSpace (s : String) : String :=
  String.mk (trimChars s.data)

/-- The verb `%d` of `fmt.Sprintf` on an integer. -/
def fmtInt (n : Int) : String :=
  toString n

/-- The duration branch of `UpdateCallStatus` (taken when `req.Duration > 0`):
seconds turned into the hours/minutes/seconds text. -/
def callDurationText (duration : Int) : String :=
  let hours := Int.tdiv duration 3600
  let minutes := Int.tdiv (Int.tmod duration 3600) 60
  let seconds := Int.tmod duration 60
  let timeStr := ""
  let timeStr := if hours > 0 then timeStr ++ (fmtInt hours ++ " giờ ") else timeStr
  let timeStr := if minutes > 0 then timeStr ++ (fmtInt minutes ++ " phút ") else timeStr
  let timeStr := if seconds > 0 then timeStr ++ (fmtInt seconds ++ " giây") else timeStr
  let timeStr := if timeStr = "" then "0 giây" else timeStr
  TrimSpace timeStr

/-- The method `ChatRepository.UpdateCallStatus`. -/
def UpdateCallStatus (db : DB) (req : UpdateCallStatusRequest) (_userID : UUID) :
    Except Error Chat × DB :=
  -- Get the current message from the chat room use call_id
  match firstChat (db.chats.filter (fun c => c.ID = req.CallID)) with
  | none => (.error .ErrRecordNotFound, db)
  | some chat =>
    -- Update the chat message with necessary information
    let chat := { chat with MessageType := req.CallType }
    -- Handle call duration if provided
    let chat := if req.Duration > 0 then
        { chat with Message := callDurationText req.Duration }
      else chat
    -- Update the chat message
    let db1 := saveChat db chat
    let messageContent :=
      if req.CallType = "missed_call" then "Cuộc gọi nhỡ"
      else if req.CallType = "call" then "Cuộc gọi đến"
      else ""
    (.ok chat, updateLastMessage db1 req.ChatRoomID chat.ID messageContent chat.CreatedAt)

/-- The method `ChatRepository.InitiateCall`; `uuidParse` stands for `uuid.Parse`. -/
def InitiateCall (uuidParse : String → Except Error UUID) (db : DB) (req : InitiateCallRequest)
    (userID : UUID) (newID : UUID) (now : Time) : Except Error Chat × DB :=
  match uuidParse req.ChatRoomID with
  | .error e => (.error e, db)
  | .ok chatRoomUUID =>
    match uuidParse req.ReceiverID with
    | .error e => (.error e, db)
    | .ok receiverUUID =>
      let newChat : Chat :=
        { ID := UUID.Nil, RoomID := chatRoomUUID, SenderID := userID, ReceiverID := receiverUUID,
          Message := "0", MessageType := "call", CreatedAt := 0 }
      -- Save the chat message
      match createChat db newChat newID now with
      | .error e => (.error e, db)
      -- This is initiated call so no need to update the chat room latest message
      | .ok (newChat, db1) => (.ok newChat, db1)

/-- The text the duration branch is described to produce: the components that
are not zero, each written as number, blank, unit, joined by single blanks. -/
def durationSpecText (d : Nat) : String :=
  " ".intercalate
    (([(d / 3600, "giờ"), ((d % 3600) / 60, "phút"), (d % 60, "giây")].filter
        (fun p => p.1 ≠ 0)).map (fun p => toString p.1 ++ " " ++ p.2))

/-- An existing message is still there with the same type and text. -/
def MessagesKept (db db1 : DB) : Prop :=
  ∀ c ∈ db.chats, ∃ c1 ∈ db1.chats,
    c1.ID = c.ID ∧ c1.MessageType = c.MessageType ∧ c1.Message = c.Message

/-! ## `PaymentController` -/

/-- The authorisation payload the middleware leaves in the request context. -/
structure Payload where
  UserID : UUID
  deriving DecidableEq, Repr

/-- A user row (`migration.User`), with the columns the handler reads. -/
structure User where
  ID : UUID
  IsMomoLinked : Bool
  deriving DecidableEq, Repr

structure LinkMomoRequest where
  WalletPhoneNumber : String
  deriving DecidableEq, Repr

/-- What `PaymentService.LinkMomoWallet` hands back, with the field the handler reads. -/
structure MomoLinkResult where
  PayUrl : String
  deriving DecidableEq, Repr

structure LinkMomoWalletResponse where
  Deeplink : String
  deriving DecidableEq, Repr

/-- The `data` argument of `helper.SuccessResponse`: `nil`, or a link-wallet response. -/
inductive ResponseData where
  | null
  | linkMomoWallet (res : LinkMomoWalletResponse)
  deriving DecidableEq, Repr

/-- The value `helper.Response`; the helper package is not among the sources, so
a response is recorded as the helper call that built it, with its arguments. -/
inductive Response where
  | ErrorResponseWithMessage (err : Error) (messageEN messageVI : String)
  | SuccessResponse (data : ResponseData) (messageEN messageVI : String)
  deriving DecidableEq, Repr

/-- A call made on a service while a request is handled. -/
inductive ServiceCall where
  | GetUserByID (userID : UUID)
  | LinkMomoWallet (userID : UUID) (walletPhoneNumber : String)
  deriving DecidableEq, Repr

/-- What a handler did: the status and body passed to `helper.GinResponse`, and
the service calls made on the way, in order. -/
structure Handled where
  status : Nat
  response : Response
  calls : List ServiceCall
  deriving DecidableEq, Repr

/-- The handler `PaymentController.LinkMomoWallet`. `payload` is the outcome of
`helper.ConvertToPayload`, `bind` of `ctx.ShouldBindJSON`, `validate` is
`p.validate.Struct`; `getUserByID` and `linkMomoWallet` are the two services. -/
def PaymentController.LinkMomoWallet
    (payload : Except Error Payload) (bind : Except Error LinkMomoRequest)
    (validate : LinkMomoRequest → Except Error Unit)
    (getUserByID : UUID → Except Error User)
    (linkMomoWallet : UUID → String → Except Error MomoLinkResult) : Handled :=
  match payload with
  | .error _ =>
    ⟨500, .ErrorResponseWithMessage (.Other "failed to convert payload")
      "Failed to convert payload" "Không thể chuyển đổi payload", []⟩
  | .ok data =>
    -- Bind request to struct
    match bind with
    | .error err =>
      ⟨400, .ErrorResponseWithMessage err "Failed to bind request" "Không thể bind request", []⟩
    | .ok req =>
      -- Validate request
      match validate req with
      | .error err =>
        ⟨400, .ErrorResponseWithMessage err "Failed to validate request"
          "Không thể validate request", []⟩
      | .ok _ =>
        -- Get user info check if user already linked momo wallet
        match getUserByID data.UserID with
        | .error err =>
          ⟨500, .ErrorResponseWithMessage err "Failed to get user info"
            "Không thể lấy thông tin người dùng", [.GetUserByID data.UserID]⟩
        | .ok user =>
          -- If user already linked momo wallet, return error response
          if user.IsMomoLinked then
            ⟨400, .ErrorResponseWithMessage (.Other "user already linked momo wallet")
              "User already linked momo wallet" "Người dùng đã liên kết ví momo",
              [.GetUserByID data.UserID]⟩
          else
            -- Link momo wallet to user account
            match linkMomoWallet data.UserID req.WalletPhoneNumber with
            | .error err =>
              ⟨500, .ErrorResponseWithMessage err "Failed to link momo wallet"
                "Không thể liên kết ví momo",
                [.GetUserByID data.UserID, .LinkMomoWallet data.UserID req.WalletPhoneNumber]⟩
            | .ok momo =>
              ⟨200, .SuccessResponse (.linkMomoWallet ⟨momo.PayUrl⟩)
                "Link momo wallet successfully" "Liên kết ví momo thành công",
                [.GetUserByID data.UserID, .LinkMomoWallet data.UserID req.WalletPhoneNumber]⟩

/-- The handler `PaymentController.CheckoutRide`, as status and body. The request
type `schemas.CheckoutRideRequest` is not among the sources and is left open;
`checkoutRide` is `PaymentService.CheckoutRide`, which returns an error or nothing. -/
def PaymentController.CheckoutRide {CheckoutRideRequest : Type}
    (payload : Except Error Payload) (bind : Except Error CheckoutRideRequest)
    (validate : CheckoutRideRequest → Except Error Unit)
    (checkoutRide : UUID → CheckoutRideRequest → Except Error Unit) : Nat × Response :=
  match payload with
  | .error _ =>
    (500, .ErrorResponseWithMessage (.Other "failed to convert payload")
      "Failed to convert payload" "Không thể chuyển đổi payload")
  | .ok data =>
    match bind with
    | .error err =>
      (400, .ErrorResponseWithMessage err "Failed to bind request" "Không thể bind request")
    | .ok req =>
      match validate req with
      | .error err =>
        (400, .ErrorResponseWithMessage err "Failed to validate request"
          "Không thể validate request")
      | .ok _ =>
        -- Perform checkout ride with momo wallet
        match checkoutRide data.UserID req with
        | .error err =>
          (500, .ErrorResponseWithMessage err "Failed to checkout ride"
            "Không thể thanh toán chuyến đi")
        | .ok _ =>
          (200, .SuccessResponse .null "Checkout ride successfully"
            "Thanh toán chuyến đi thành công")

/-! ## `helper.OptimizeRoutePoints` -/

/-- The type `schemas.Point`. The coordinates are `float64` in the program; the
filtering below only compares points and asks whether two of them are far
enough apart, so the coordinate type is left open. -/
structure Point (Coord : Type) where
  Lat : Coord
  Lng : Coord
  deriving DecidableEq, Repr

/-- The function `OptimizeRoutePoints`. `haversineDistance` is the distance
function of the same name and `geMinDistance d` the test `d >= minDistance`;
`getLastD` reads `optimized[len(optimized)-1]` (the list is never empty there). -/
def OptimizeRoutePoints {Coord Dist : Type} [DecidableEq Coord]
    (haversineDistance : Point Coord → Point Coord → Dist) (geMinDistance : Dist → Bool)
    (points : List (Point Coord)) : List (Point Coord) :=
  match points with
  | [] => points
  | [_] => points
  | p0 :: rest =>
    let optimized := rest.foldl (fun optimized p =>
      if geMinDistance (haversineDistance (optimized.getLastD p0) p) then optimized ++ [p]
      else optimized) [p0]
    -- Always include the last point
    if optimized.getLastD p0 ≠ (p0 :: rest).getLastD p0 then
      optimized ++ [(p0 :: rest).getLastD p0]
    else optimized

/-! ## Sample data -/

/-- A room between users 10 and 11, with no message yet. -/
def sampleRoom : Room := ⟨⟨1⟩, ⟨10⟩, ⟨11⟩, UUID.Nil, "", 0⟩

/-- The message `InitiateCall` stores when user 11 calls user 10 in that room. -/
def sampleCall : Chat := ⟨⟨5⟩, ⟨1⟩, ⟨11⟩, ⟨10⟩, "0", "call", 7⟩

/-- A store holding the sample room and the sample call message. -/
def sampleDB : DB := ⟨[sampleRoom], [sampleCall]⟩

/-- A stand-in distance on integer grid points (sum of the coordinate
differences), used to run `OptimizeRoutePoints` on concrete routes. -/
def gridDistance (a b : Point Int) : Nat :=
  (b.Lat - a.Lat).natAbs + (b.Lng - a.Lng).natAbs

/-- The threshold test for the stand-in distance: at least ten grid steps. -/
def gridGeMin (d : Nat) : Bool :=
  decide (10 ≤ d)

/-- A route of four grid points: the second is close to the first, the last is
close to the third. -/
def sampleRoute : List (Point Int) := [⟨0, 0⟩, ⟨3, 0⟩, ⟨20, 0⟩, ⟨22, 0⟩]

/-! ## Properties: room lookup -/

theorem firstRoom_filter_congr (p q : Room → Bool) (l : List Room) (h : ∀ r, p r = q r) :
    firstRoom (l.filter p) = firstRoom (l.filter q) := by
  have hpq : p = q := funext h
  rw [hpq]

/-- C1: chat-room lookup is symmetric. For every store state and every two user
identities, `GetChatRoomByUserIDs` returns the same result (the same room or the
same error) for both orders of the arguments; the service method, which hands
the call on unchanged, inherits this from the lookup it is given. -/
theorem GetChatRoomByUserIDs_symmetric (db : DB) (a b : UUID) :
    GetChatRoomByUserIDs db a b = GetChatRoomByUserIDs db b a ∧
    RideService.GetChatRoomByUserIDs (GetChatRoomByUserIDs db) a b
      = RideService.GetChatRoomByUserIDs (GetChatRoomByUserIDs db) b a := by
  have key : GetChatRoomByUserIDs db a b = GetChatRoomByUserIDs db b a := by
    unfold GetChatRoomByUserIDs
    have hswap : ∀ x y : UUID, firstRoom (db.rooms.filter (fun r =>
          decide ((r.User1ID = x ∧ r.User2ID = y) ∨ (r.User1ID = y ∧ r.User2ID = x))))
        = firstRoom (db.rooms.filter (fun r =>
          decide ((r.User1ID = y ∧ r.User2ID = x) ∨ (r.User1ID = x ∧ r.User2ID = y)))) := by
      intro x y
      apply firstRoom_filter_congr
      intro r
      exact decide_eq_decide.mpr Or.comm
    split_ifs <;> first
      | rfl
      | (dsimp only; rw [hswap])
  exact ⟨key, key⟩

theorem firstRoom_filter_map (f : Room → Room) (p : Room → Bool)
    (hid : ∀ r, (f r).ID = r.ID) (hp : ∀ r, p (f r) = p r) (l : List Room) :
    firstRoom ((l.map f).filter p) = (firstRoom (l.filter p)).map f := by
  induction l with
  | nil => rfl
  | cons r rs ih =>
    by_cases hr : p r = true
    · have hfr : p (f r) = true := by rw [hp]; exact hr
      simp only [List.map_cons, List.filter_cons_of_pos hfr, List.filter_cons_of_pos hr,
        firstRoom, ih]
      cases hrest : firstRoom (rs.filter p) with
      | none => rfl
      | some b =>
        simp only [Option.map_some', hid]
        split_ifs <;> rfl
    · have hfr : ¬ p (f r) = true := by rw [hp]; exact hr
      simp only [List.map_cons, List.filter_cons_of_neg hfr, List.filter_cons_of_neg hr, ih]

/-- Rewriting rooms without touching their key or their two users does not
change which room a lookup finds. -/
theorem GetChatRoomByUserIDs_map (db db1 : DB) (f : Room → Room) (a b : UUID)
    (hrooms : db1.rooms = db.rooms.map f) (hid : ∀ r, (f r).ID = r.ID)
    (h1 : ∀ r, (f r).User1ID = r.User1ID) (h2 : ∀ r, (f r).User2ID = r.User2ID)
    (room : Room) (h : GetChatRoomByUserIDs db a b = .ok room) :
    GetChatRoomByUserIDs db1 a b = .ok (f room) := by
  unfold GetChatRoomByUserIDs at h ⊢
  rw [hrooms]
  dsimp only at h ⊢
  rw [firstRoom_filter_map f _ hid (by intro r; simp only [h1, h2])]
  cases hfound : firstRoom (List.filter (fun r =>
      decide ((r.User1ID = (if strLt b.String.data a.String.data = true then (b, a) else (a, b)).1
          ∧ r.User2ID = (if strLt b.String.data a.String.data = true then (b, a) else (a, b)).2)
        ∨ (r.User1ID = (if strLt b.String.data a.String.data = true then (b, a) else (a, b)).2
          ∧ r.User2ID = (if strLt b.String.data a.String.data = true then (b, a) else (a, b)).1)))
      db.rooms) with
  | none => rw [hfound] at h; cases h
  | some r =>
    rw [hfound] at h
    injection h with h
    subst h
    rfl

/-- C6: a successful `SendMessage` leaves the room of the (sender, receiver)
pair with a last-message summary equal to the newly created message (its ID, its
text, its creation time), and returns a message stored in the chats table that
carries that room's ID, the caller as sender, the requested receiver, the
requested text and the type "text". -/
theorem SendMessage_sets_last_message (db db1 : DB) (req : SendMessageRequest)
    (userID newID : UUID) (now : Time) (msg : Chat)
    (h : SendMessage db req userID newID now = (.ok msg, db1)) :
    ∃ room, GetChatRoomByUserIDs db1 userID req.ReceiverID = .ok room ∧
      room.LastMessageID = msg.ID ∧ room.LastMessageText = msg.Message ∧
      room.LastMessageAt = msg.CreatedAt ∧
      msg.RoomID = room.ID ∧ msg.SenderID = userID ∧ msg.ReceiverID = req.ReceiverID ∧
      msg.MessageType = "text" ∧ msg.Message = req.Message ∧
      msg ∈ db1.chats ∧ (∀ c ∈ db.chats, c.ID ≠ msg.ID) := by
  unfold SendMessage at h
  cases hroom : GetChatRoomByUserIDs db userID req.ReceiverID with
  | error e => rw [hroom] at h; cases h
  | ok room0 =>
    rw [hroom] at h
    dsimp only at h
    unfold createChat at h
    by_cases hdup : (db.chats.any (fun x => decide (x.ID = newID))) = true
    · rw [if_pos hdup] at h; cases h
    · rw [if_neg hdup] at h
      dsimp only at h
      injection h with hmsg hdb
      injection hmsg with hmsg
      subst hmsg
      subst hdb
      refine ⟨_, GetChatRoomByUserIDs_map db _ _ userID req.ReceiverID rfl ?_ ?_ ?_ room0 hroom,
        ?_, ?_, ?_, ?_, rfl, rfl, rfl, rfl, ?_, ?_⟩
      · intro r; dsimp only; split_ifs <;> rfl
      · intro r; dsimp only; split_ifs <;> rfl
      · intro r; dsimp only; split_ifs <;> rfl
      · simp
      · simp
      · simp
      · simp
      · simp [updateLastMessage]
      · intro c hc hid
        apply hdup
        rw [List.any_eq_true]
        exact ⟨c, hc, by simpa using hid⟩

/-- A concrete successful send: one room between users 10 and 11, user 11
writes "hi" to user 10. -/
theorem SendMessage_sets_last_message_witness :
    ∃ room, GetChatRoomByUserIDs
        ⟨[⟨⟨1⟩, ⟨10⟩, ⟨11⟩, ⟨5⟩, "hi", 7⟩], [⟨⟨5⟩, ⟨1⟩, ⟨11⟩, ⟨10⟩, "hi", "text", 7⟩]⟩
        ⟨11⟩ (SendMessageRequest.mk ⟨10⟩ "hi").ReceiverID = .ok room ∧
      room.LastMessageID = (Chat.mk ⟨5⟩ ⟨1⟩ ⟨11⟩ ⟨10⟩ "hi" "text" 7).ID ∧
      room.LastMessageText = (Chat.mk ⟨5⟩ ⟨1⟩ ⟨11⟩ ⟨10⟩ "hi" "text" 7).Message ∧
      room.LastMessageAt = (Chat.mk ⟨5⟩ ⟨1⟩ ⟨11⟩ ⟨10⟩ "hi" "text" 7).CreatedAt ∧
      (Chat.mk ⟨5⟩ ⟨1⟩ ⟨11⟩ ⟨10⟩ "hi" "text" 7).RoomID = room.ID ∧
      (Chat.mk ⟨5⟩ ⟨1⟩ ⟨11⟩ ⟨10⟩ "hi" "text" 7).SenderID = ⟨11⟩ ∧
      (Chat.mk ⟨5⟩ ⟨1⟩ ⟨11⟩ ⟨10⟩ "hi" "text" 7).ReceiverID
        = (SendMessageRequest.mk ⟨10⟩ "hi").ReceiverID ∧
      (Chat.mk ⟨5⟩ ⟨1⟩ ⟨11⟩ ⟨10⟩ "hi" "text" 7).MessageType = "text" ∧
      (Chat.mk ⟨5⟩ ⟨1⟩ ⟨11⟩ ⟨10⟩ "hi" "text" 7).Message
        = (SendMessageRequest.mk ⟨10⟩ "hi").Message ∧
      (Chat.mk ⟨5⟩ ⟨1⟩ ⟨11⟩ ⟨10⟩ "hi" "text" 7) ∈
        (DB.mk [⟨⟨1⟩, ⟨10⟩, ⟨11⟩, ⟨5⟩, "hi", 7⟩] [⟨⟨5⟩, ⟨1⟩, ⟨11⟩, ⟨10⟩, "hi", "text", 7⟩]).chats ∧
      (∀ c ∈ (DB.mk [⟨⟨1⟩, ⟨10⟩, ⟨11⟩, ⟨0⟩, "", 0⟩] []).chats,
        c.ID ≠ (Chat.mk ⟨5⟩ ⟨1⟩ ⟨11⟩ ⟨10⟩ "hi" "text" 7).ID) :=
  SendMessage_sets_last_message ⟨[⟨⟨1⟩, ⟨10⟩, ⟨11⟩, ⟨0⟩, "", 0⟩], []⟩ _ ⟨⟨10⟩, "hi"⟩ ⟨11⟩ ⟨5⟩ 7 _
    (by decide)

/-! ## Properties: reading a room's messages -/

/-- C5: for every room ID and every store state, `GetChatMessages` succeeds and
returns exactly the messages of the requested room (the same rows, each as often
as it is stored, and no other), ordered by creation time ascending: each
returned message was created no later than the one after it, and indeed no
later than any message further down. The store is left as it was. -/
theorem GetChatMessages_room_ascending (db : DB) (req : GetChatMessagesRequest) (userID : UUID) :
    ∃ msgs, (GetChatMessages db req userID).1 = .ok msgs ∧
      msgs.Perm (db.chats.filter (fun c => c.RoomID = req.ChatRoomID)) ∧
      (∀ c, c ∈ msgs ↔ c ∈ db.chats ∧ c.RoomID = req.ChatRoomID) ∧
      List.Chain' (fun a b => a.CreatedAt ≤ b.CreatedAt) msgs ∧
      List.Pairwise (fun a b => a.CreatedAt ≤ b.CreatedAt) msgs ∧
      (GetChatMessages db req userID).2 = db := by
  haveI : IsTotal Chat (fun a b => a.CreatedAt ≤ b.CreatedAt) :=
    ⟨fun a b => Nat.le_total a.CreatedAt b.CreatedAt⟩
  haveI : IsTrans Chat (fun a b => a.CreatedAt ≤ b.CreatedAt) :=
    ⟨fun _ _ _ hab hbc => Nat.le_trans hab hbc⟩
  have hperm := List.perm_insertionSort (fun a b : Chat => a.CreatedAt ≤ b.CreatedAt)
    (db.chats.filter (fun c => c.RoomID = req.ChatRoomID))
  have hsorted := List.sorted_insertionSort (fun a b : Chat => a.CreatedAt ≤ b.CreatedAt)
    (db.chats.filter (fun c => c.RoomID = req.ChatRoomID))
  refine ⟨_, rfl, hperm, ?_, hsorted.chain', hsorted, rfl⟩
  intro c
  rw [hperm.mem_iff, List.mem_filter]
  simp

/-! ## Properties: call-duration text -/

theorem digitChar_not_space (k : Nat) (hk : k < 10) : isSpace (Nat.digitChar k) = false := by
  interval_cases k <;> decide

theorem toDigitsCore_not_space (f : Nat) : ∀ (n : Nat) (ds : List Char),
    (∀ c ∈ ds, isSpace c = false) → ∀ c ∈ Nat.toDigitsCore 10 f n ds, isSpace c = false := by
  induction f with
  | zero => intro n ds hds c hc; exact hds c (by simpa [Nat.toDigitsCore] using hc)
  | succ f ih =>
    intro n ds hds c hc
    have hcons : ∀ c ∈ Nat.digitChar (n % 10) :: ds, isSpace c = false := by
      intro c hc
      rcases List.mem_cons.mp hc with h | h
      · rw [h]; exact digitChar_not_space _ (Nat.mod_lt _ (by decide))
      · exact hds c h
    unfold Nat.toDigitsCore at hc
    dsimp only at hc
    split_ifs at hc
    · exact hcons c hc
    · exact ih _ _ hcons c hc

theorem toDigitsCore_ne_nil (f : Nat) : ∀ (n : Nat) (ds : List Char),
    Nat.toDigitsCore 10 (f + 1) n ds ≠ [] := by
  induction f with
  | zero =>
    intro n ds
    unfold Nat.toDigitsCore
    dsimp only
    split_ifs
    · simp
    · simp [Nat.toDigitsCore]
  | succ f ih =>
    intro n ds
    unfold Nat.toDigitsCore
    dsimp only
    split_ifs
    · simp
    · exact ih _ _

theorem dropWhile_space_of_head (l : List Char)
    (hhead : ∀ c, l.head? = some c → isSpace c = false) : l.dropWhile isSpace = l := by
  cases l with
  | nil => rfl
  | cons a t =>
    have ha : isSpace a = false := hhead a rfl
    simp [List.dropWhile_cons, ha]

theorem trimChars_eq_self (l : List Char)
    (hhead : ∀ c, l.head? = some c → isSpace c = false)
    (hlast : ∀ c, l.getLast? = some c → isSpace c = false) : trimChars l = l := by
  unfold trimChars
  rw [dropWhile_space_of_head l hhead, dropWhile_space_of_head l.reverse, List.reverse_reverse]
  intro c hc
  rw [List.head?_reverse] at hc
  exact hlast c hc

theorem trimChars_append_space (l : List Char) (hne : l ≠ [])
    (hhead : ∀ c, l.head? = some c → isSpace c = false)
    (hlast : ∀ c, l.getLast? = some c → isSpace c = false) : trimChars (l ++ [' ']) = l := by
  unfold trimChars
  rw [dropWhile_space_of_head (l ++ [' '])]
  · rw [List.reverse_append]
    have hsp : isSpace ' ' = true := by decide
    simp only [List.reverse_cons, List.reverse_nil, List.nil_append, List.singleton_append,
      List.dropWhile_cons, hsp, if_true]
    rw [dropWhile_space_of_head l.reverse, List.reverse_reverse]
    intro c hc
    rw [List.head?_reverse] at hc
    exact hlast c hc
  · intro c hc
    cases l with
    | nil => exact absurd rfl hne
    | cons a t => exact hhead c (by simpa using hc)

theorem toString_data_shape (k : Nat) :
    ∃ a t, (toString k).data = a :: t ∧ isSpace a = false := by
  have hne : Nat.toDigits 10 k ≠ [] := toDigitsCore_ne_nil k k []
  have hall : ∀ c ∈ Nat.toDigits 10 k, isSpace c = false :=
    toDigitsCore_not_space (k + 1) k [] (by simp)
  have hdata : (toString k).data = Nat.toDigits 10 k := rfl
  rw [hdata]
  cases hd : Nat.toDigits 10 k with
  | nil => exact absurd hd hne
  | cons a t => exact ⟨a, t, rfl, hall a (by rw [hd]; simp)⟩

theorem getLast?_cons_append_cons (a b : Char) (l t : List Char) :
    (a :: (l ++ b :: t)).getLast? = (b :: t).getLast? := by
  rw [← List.cons_append, List.getLast?_append_of_ne_nil _ (List.cons_ne_nil b t)]

theorem durationSpecText_shape (n : Nat) (hn : 0 < n) :
    (durationSpecText n).data ≠ [] ∧
    (∀ c, (durationSpecText n).data.head? = some c → isSpace c = false) ∧
    (∀ c, (durationSpecText n).data.getLast? = some c → isSpace c = false) := by
  obtain ⟨a1, t1, e1, ha1⟩ := toString_data_shape (n / 3600)
  obtain ⟨a2, t2, e2, ha2⟩ := toString_data_shape (n % 3600 / 60)
  obtain ⟨a3, t3, e3, ha3⟩ := toString_data_shape (n % 60)
  have hy : isSpace 'y' = false := by decide
  have ht : isSpace 't' = false := by decide
  have ho : isSpace 'ờ' = false := by decide
  unfold durationSpecText
  by_cases h0 : n / 3600 = 0 <;> by_cases m0 : n % 3600 / 60 = 0 <;> by_cases s0 : n % 60 = 0
  · omega
  all_goals
    simp only [List.filter, h0, m0, s0, ne_eq, not_true_eq_false, not_false_eq_true,
      decide_True, decide_False, List.map, String.intercalate, String.intercalate.go,
      String.data_append, e1, e2, e3]
    simp [getLast?_cons_append_cons, List.getLast?_cons_cons, ha1, ha2, ha3, hy, ht, ho]

theorem string_append_eq_empty (s t : String) : s ++ t = "" ↔ s = "" ∧ t = "" := by
  constructor
  · intro h
    have hd := congrArg String.data h
    rw [String.data_append] at hd
    have hd2 : s.data = [] ∧ t.data = [] := List.append_eq_nil.mp hd
    exact ⟨String.ext hd2.1, String.ext hd2.2⟩
  · rintro ⟨rfl, rfl⟩
    rfl

theorem callDurationText_eq_spec (n : Nat) (hn : 0 < n) :
    callDurationText (n : Int) = durationSpecText n := by
  obtain ⟨hne, hhead, hlast⟩ := durationSpecText_shape n hn
  have hh : Int.tdiv (n : Int) 3600 = ((n / 3600 : Nat) : Int) := rfl
  have hm : Int.tdiv (Int.tmod (n : Int) 3600) 60 = ((n % 3600 / 60 : Nat) : Int) := rfl
  have hs : Int.tmod (n : Int) 60 = ((n % 60 : Nat) : Int) := rfl
  have hfmt : ∀ k : Nat, fmtInt (k : Int) = toString k := fun _ => rfl
  have hpos : ∀ k : Nat, ((k : Int) > 0) ↔ k ≠ 0 := by intro k; omega
  apply String.ext
  unfold callDurationText TrimSpace
  simp only [hh, hm, hs, hfmt, hpos]
  by_cases s0 : n % 60 = 0
  · have hraw : ∀ raw : String, raw.data = (durationSpecText n).data ++ [' '] →
        trimChars raw.data = (durationSpecText n).data := by
      intro raw hraw
      rw [hraw, trimChars_append_space _ hne hhead hlast]
    apply hraw
    unfold durationSpecText
    by_cases h0 : n / 3600 = 0 <;> by_cases m0 : n % 3600 / 60 = 0
    · omega
    all_goals
      simp [List.filter, h0, m0, s0, String.intercalate, String.intercalate.go,
        String.data_append, string_append_eq_empty]
  · have hraw : ∀ raw : String, raw.data = (durationSpecText n).data →
        trimChars raw.data = (durationSpecText n).data := by
      intro raw hraw
      rw [hraw, trimChars_eq_self _ hhead hlast]
    apply hraw
    unfold durationSpecText
    by_cases h0 : n / 3600 = 0 <;> by_cases m0 : n % 3600 / 60 = 0
    all_goals
      simp [List.filter, h0, m0, s0, String.intercalate, String.intercalate.go,
        String.data_append, string_append_eq_empty]

theorem firstChat_mem (l : List Chat) (c : Chat) (h : firstChat l = some c) : c ∈ l := by
  induction l generalizing c with
  | nil => cases h
  | cons x xs ih =>
    unfold firstChat at h
    cases hrest : firstChat xs with
    | none =>
      rw [hrest] at h
      injection h with h
      rw [← h]
      exact List.mem_cons_self _ _
    | some b =>
      rw [hrest] at h
      dsimp only at h
      split_ifs at h
      · injection h with h
        rw [← h]
        exact List.mem_cons_of_mem _ (ih b hrest)
      · injection h with h
        rw [← h]
        exact List.mem_cons_self _ _

/-- What a successful `UpdateCallStatus` returns and stores: the row found under
the call ID, with the requested type and, for a positive duration, the new text. -/
theorem UpdateCallStatus_ok (db db1 : DB) (req : UpdateCallStatusRequest) (userID : UUID)
    (chat : Chat) (h : UpdateCallStatus db req userID = (.ok chat, db1)) :
    ∃ c0 ∈ db.chats, c0.ID = req.CallID ∧
      chat = (if req.Duration > 0 then
          { c0 with MessageType := req.CallType, Message := callDurationText req.Duration }
        else { c0 with MessageType := req.CallType }) ∧
      db1.chats = db.chats.map (fun x => if x.ID = req.CallID then chat else x) := by
  unfold UpdateCallStatus at h
  cases hfound : firstChat (db.chats.filter (fun c => decide (c.ID = req.CallID))) with
  | none => rw [hfound] at h; cases h
  | some c0 =>
    rw [hfound] at h
    have hmem := firstChat_mem _ _ hfound
    rw [List.mem_filter] at hmem
    have hid : c0.ID = req.CallID := by simpa using hmem.2
    dsimp only at h
    injection h with hchat hdb
    injection hchat with hchat
    refine ⟨c0, hmem.1, hid, ?_, ?_⟩
    · rw [← hchat]
    · have hcid : chat.ID = req.CallID := by
        rw [← hchat, ← hid]
        split_ifs <;> rfl
      rw [← hdb, hchat]
      simp only [updateLastMessage, saveChat, hcid]

/-- C9: `UpdateCallStatus` turns a positive call duration `d` (seconds) into the
hours/minutes/seconds text. With `h = d / 3600`, `m = (d mod 3600) / 60` and
`s = d mod 60` (so `h*3600 + m*60 + s = d`, `m < 60`, `s < 60`), the text of the
returned message, which is the text stored under the call ID, is the components
"h giờ", "m phút", "s giây" that are not zero, in this order, joined by single
blanks; it is not empty and neither starts nor ends with white space. -/
theorem UpdateCallStatus_duration_text (db db1 : DB) (req : UpdateCallStatusRequest)
    (userID : UUID) (chat : Chat) (hd : 0 < req.Duration)
    (h : UpdateCallStatus db req userID = (.ok chat, db1)) :
    chat.Message = durationSpecText req.Duration.toNat ∧
    chat ∈ db1.chats ∧ chat.ID = req.CallID ∧
    (∀ c ∈ db1.chats, c.ID = req.CallID → c.Message = durationSpecText req.Duration.toNat) ∧
    (req.Duration.toNat / 3600) * 3600 + (req.Duration.toNat % 3600 / 60) * 60
      + req.Duration.toNat % 60 = req.Duration.toNat ∧
    req.Duration.toNat % 3600 / 60 < 60 ∧ req.Duration.toNat % 60 < 60 ∧
    (durationSpecText req.Duration.toNat).data ≠ [] ∧
    (∀ c, (durationSpecText req.Duration.toNat).data.head? = some c → isSpace c = false) ∧
    (∀ c, (durationSpecText req.Duration.toNat).data.getLast? = some c →
      isSpace c = false) := by
  have hnat : ((req.Duration.toNat : Nat) : Int) = req.Duration := Int.toNat_of_nonneg hd.le
  have hpos : 0 < req.Duration.toNat := by omega
  obtain ⟨c0, hc0, hid, hchat, hdb⟩ := UpdateCallStatus_ok db db1 req userID chat h
  rw [if_pos hd] at hchat
  have htext : chat.Message = durationSpecText req.Duration.toNat := by
    rw [hchat]
    show callDurationText req.Duration = _
    rw [← callDurationText_eq_spec _ hpos, hnat]
  have hcid : chat.ID = req.CallID := by rw [hchat]; exact hid
  refine ⟨htext, ?_, hcid, ?_, by omega, by omega, by omega,
    durationSpecText_shape _ hpos⟩
  · rw [hdb, List.mem_map]
    exact ⟨c0, hc0, by rw [if_pos hid]⟩
  · intro c hc hcall
    rw [hdb, List.mem_map] at hc
    obtain ⟨x, _, hx⟩ := hc
    by_cases hxid : x.ID = req.CallID
    · rw [if_pos hxid] at hx
      rw [← hx]
      exact htext
    · rw [if_neg hxid] at hx
      rw [hx] at hxid
      exact absurd hcall hxid

/-- A call of 3661 seconds in the sample store: the stored text reads
"1 giờ 1 phút 1 giây"; a call of 3600 seconds reads "1 giờ". -/
theorem UpdateCallStatus_duration_text_witness :
    (0 : Int) < (UpdateCallStatusRequest.mk ⟨5⟩ ⟨1⟩ "call" 3661).Duration ∧
    (UpdateCallStatus sampleDB ⟨⟨5⟩, ⟨1⟩, "call", 3661⟩ ⟨11⟩).1
      = .ok { sampleCall with Message := "1 giờ 1 phút 1 giây" } ∧
    ({ sampleCall with Message := "1 giờ 1 phút 1 giây" } : Chat).Message
      = durationSpecText (3661 : Int).toNat ∧
    durationSpecText 3600 = "1 giờ" :=
  ⟨by decide, by decide,
    (UpdateCallStatus_duration_text sampleDB
      (UpdateCallStatus sampleDB ⟨⟨5⟩, ⟨1⟩, "call", 3661⟩ ⟨11⟩).2
      ⟨⟨5⟩, ⟨1⟩, "call", 3661⟩ ⟨11⟩ { sampleCall with Message := "1 giờ 1 phút 1 giây" }
      (by decide) (by decide)).1,
    by decide⟩

/-! ## Properties: which messages an operation leaves alone -/

theorem MessagesKept_of_subset (db db1 : DB) (h : ∀ c ∈ db.chats, c ∈ db1.chats) :
    MessagesKept db db1 :=
  fun c hc => ⟨c, h c hc, rfl, rfl, rfl⟩

theorem createChat_chats (db db1 : DB) (c saved : Chat) (newID : UUID) (now : Time)
    (h : createChat db c newID now = .ok (saved, db1)) :
    db1.chats = db.chats ++ [saved] ∧ db1.rooms = db.rooms := by
  unfold createChat at h
  split_ifs at h
  injection h with h
  injection h with hsaved hdb
  rw [← hdb, ← hsaved]
  exact ⟨rfl, rfl⟩

theorem SendMessage_keeps (db : DB) (req : SendMessageRequest) (userID newID : UUID) (now : Time) :
    ∀ c ∈ db.chats, c ∈ (SendMessage db req userID newID now).2.chats := by
  intro c hc
  unfold SendMessage
  cases GetChatRoomByUserIDs db userID req.ReceiverID with
  | error e => exact hc
  | ok room =>
    dsimp only
    cases hcreate : createChat db _ newID now with
    | error e => exact hc
    | ok r =>
      obtain ⟨saved, db1⟩ := r
      dsimp only [updateLastMessage]
      rw [(createChat_chats _ _ _ _ _ _ hcreate).1]
      exact List.mem_append_left _ hc

theorem UploadImage_keeps (uuidParse : String → Except Error UUID) (db : DB)
    (req : SendImageRequest) (userID : UUID) (imageURL : String) (newID : UUID) (now : Time) :
    ∀ c ∈ db.chats, c ∈ (UploadImage uuidParse db req userID imageURL newID now).2.chats := by
  intro c hc
  unfold UploadImage
  cases uuidParse req.ReceiverID with
  | error e => exact hc
  | ok receiverID =>
    dsimp only
    cases GetChatRoomByUserIDs db userID receiverID with
    | error e => exact hc
    | ok room =>
      dsimp only
      cases hcreate : createChat db _ newID now with
      | error e => exact hc
      | ok r =>
        obtain ⟨saved, db1⟩ := r
        dsimp only [updateLastMessage]
        rw [(createChat_chats _ _ _ _ _ _ hcreate).1]
        exact List.mem_append_left _ hc

theorem InitiateCall_keeps (uuidParse : String → Except Error UUID) (db : DB)
    (req : InitiateCallRequest) (userID newID : UUID) (now : Time) :
    ∀ c ∈ db.chats, c ∈ (InitiateCall uuidParse db req userID newID now).2.chats := by
  intro c hc
  unfold InitiateCall
  cases uuidParse req.ChatRoomID with
  | error e => exact hc
  | ok chatRoomUUID =>
    dsimp only
    cases uuidParse req.ReceiverID with
    | error e => exact hc
    | ok receiverUUID =>
      dsimp only
      cases hcreate : createChat db _ newID now with
      | error e => exact hc
      | ok r =>
        obtain ⟨saved, db1⟩ := r
        dsimp only
        rw [(createChat_chats _ _ _ _ _ _ hcreate).1]
        exact List.mem_append_left _ hc

theorem UpdateCallStatus_chats (db : DB) (req : UpdateCallStatusRequest) (userID : UUID) :
    (UpdateCallStatus db req userID).2.chats = db.chats ∨
    ∃ chat, chat.ID = req.CallID ∧ (UpdateCallStatus db req userID).2.chats
      = db.chats.map (fun x => if x.ID = req.CallID then chat else x) := by
  cases hres : UpdateCallStatus db req userID with
  | mk res db1 =>
    cases res with
    | error e =>
      left
      unfold UpdateCallStatus at hres
      cases hfound : firstChat (db.chats.filter (fun c => decide (c.ID = req.CallID))) with
      | none =>
        rw [hfound] at hres
        injection hres with _ hdb
        rw [← hdb]
      | some c0 =>
        rw [hfound] at hres
        injection hres with hbad _
        cases hbad
    | ok chat =>
      right
      obtain ⟨c0, _, hid, hchat, hdb⟩ := UpdateCallStatus_ok db db1 req userID chat hres
      refine ⟨chat, ?_, hdb⟩
      rw [hchat, ← hid]
      split_ifs <;> rfl

theorem firstChat_eq_none (l : List Chat) (h : firstChat l = none) : l = [] := by
  cases l with
  | nil => rfl
  | cons x xs =>
    unfold firstChat at h
    cases hrest : firstChat xs with
    | none => rw [hrest] at h; cases h
    | some b =>
      rw [hrest] at h
      dsimp only at h
      split_ifs at h

/-- When a message is stored under the call ID, `UpdateCallStatus` succeeds. -/
theorem UpdateCallStatus_found (db : DB) (req : UpdateCallStatusRequest) (userID : UUID)
    (hex : ∃ c ∈ db.chats, c.ID = req.CallID) :
    ∃ chat, UpdateCallStatus db req userID
      = (.ok chat, (UpdateCallStatus db req userID).2) := by
  cases hres : UpdateCallStatus db req userID with
  | mk res db1 =>
    cases res with
    | ok chat => exact ⟨chat, rfl⟩
    | error e =>
      exfalso
      unfold UpdateCallStatus at hres
      cases hfound : firstChat (db.chats.filter (fun c => decide (c.ID = req.CallID))) with
      | none =>
        obtain ⟨c, hc, hid⟩ := hex
        have hmem : c ∈ db.chats.filter (fun c => decide (c.ID = req.CallID)) :=
          List.mem_filter.mpr ⟨hc, by simpa using hid⟩
        rw [firstChat_eq_none _ hfound] at hmem
        cases hmem
      | some c0 =>
        rw [hfound] at hres
        injection hres with hbad _
        cases hbad

/-- When no message is stored under the call ID, `UpdateCallStatus` fails with
record-not-found and writes nothing. -/
theorem UpdateCallStatus_missing (db : DB) (req : UpdateCallStatusRequest) (userID : UUID)
    (hno : ∀ c ∈ db.chats, c.ID ≠ req.CallID) :
    UpdateCallStatus db req userID = (.error .ErrRecordNotFound, db) := by
  unfold UpdateCallStatus
  cases hfound : firstChat (db.chats.filter (fun c => decide (c.ID = req.CallID))) with
  | none => rfl
  | some c0 =>
    have hmem := firstChat_mem _ _ hfound
    rw [List.mem_filter] at hmem
    exact absurd (by simpa using hmem.2) (hno c0 hmem.1)

/-- C3, as stated, fails: in the sample store the call message has type "call"
and text "0"; after `UpdateCallStatus` for a missed call of 61 seconds the only
stored message has type "missed_call" and text "1 phút 1 giây", so the message
that was there is no longer there with its type and text. -/
theorem UpdateCallStatus_rewrites_message :
    sampleDB.chats = [⟨⟨5⟩, ⟨1⟩, ⟨11⟩, ⟨10⟩, "0", "call", 7⟩] ∧
    (UpdateCallStatus sampleDB ⟨⟨5⟩, ⟨1⟩, "missed_call", 61⟩ ⟨11⟩).2.chats
      = [⟨⟨5⟩, ⟨1⟩, ⟨11⟩, ⟨10⟩, "1 phút 1 giây", "missed_call", 7⟩] ∧
    ¬ MessagesKept sampleDB
        (UpdateCallStatus sampleDB ⟨⟨5⟩, ⟨1⟩, "missed_call", 61⟩ ⟨11⟩).2 := by
  refine ⟨by decide, by decide, ?_⟩
  unfold MessagesKept
  decide

/-- C3, amended: every operation of the chat repository other than
`UpdateCallStatus` (`SendMessage`, `UploadImage`, `InitiateCall`,
`GetChatMessages`, `GetAllChatRooms`, and the lookup `GetChatRoomByUserIDs`,
which writes nothing) keeps every existing message with its type and text,
whether it succeeds or fails. `UpdateCallStatus` keeps every message whose ID is
not the call ID of the request exactly as it was, and the message with that ID
is still stored under the same ID afterwards; but that message is rewritten:
when a message is stored under the call ID the operation succeeds, and the
message it returns, which is the one stored under the call ID afterwards, has
the requested call type as its type and, for a positive duration, the duration
text as its text (for a duration that is not positive the text stays that of a
message stored under the call ID before). When no message is stored under the
call ID the operation fails with record-not-found and the store is unchanged. -/
theorem chat_operations_keep_messages (uuidParse : String → Except Error UUID) (db : DB) :
    (∀ req userID newID now, MessagesKept db (SendMessage db req userID newID now).2) ∧
    (∀ req userID imageURL newID now,
      MessagesKept db (UploadImage uuidParse db req userID imageURL newID now).2) ∧
    (∀ req userID newID now,
      MessagesKept db (InitiateCall uuidParse db req userID newID now).2) ∧
    (∀ req userID, MessagesKept db (GetChatMessages db req userID).2) ∧
    (∀ userID, MessagesKept db (GetAllChatRooms db userID).2) ∧
    MessagesKept db db ∧
    (∀ req userID, ∀ c ∈ db.chats, c.ID ≠ req.CallID →
      c ∈ (UpdateCallStatus db req userID).2.chats) ∧
    (∀ req userID, ∀ c ∈ db.chats,
      ∃ c1 ∈ (UpdateCallStatus db req userID).2.chats, c1.ID = c.ID) ∧
    (∀ req userID, (∃ c ∈ db.chats, c.ID = req.CallID) →
      ∃ chat, (UpdateCallStatus db req userID).1 = .ok chat ∧
        chat.ID = req.CallID ∧ chat.MessageType = req.CallType ∧
        (0 < req.Duration → chat.Message = callDurationText req.Duration) ∧
        (¬ 0 < req.Duration →
          ∃ c0 ∈ db.chats, c0.ID = req.CallID ∧ chat.Message = c0.Message) ∧
        chat ∈ (UpdateCallStatus db req userID).2.chats ∧
        (∀ c ∈ (UpdateCallStatus db req userID).2.chats, c.ID = req.CallID → c = chat)) ∧
    (∀ req userID, (∀ c ∈ db.chats, c.ID ≠ req.CallID) →
      UpdateCallStatus db req userID = (.error .ErrRecordNotFound, db)) := by
  refine ⟨?_, ?_, ?_, ?_, ?_, ?_, ?_, ?_, ?_, ?_⟩
  · intro req userID newID now
    exact MessagesKept_of_subset _ _ (SendMessage_keeps db req userID newID now)
  · intro req userID imageURL newID now
    exact MessagesKept_of_subset _ _ (UploadImage_keeps uuidParse db req userID imageURL newID now)
  · intro req userID newID now
    exact MessagesKept_of_subset _ _ (InitiateCall_keeps uuidParse db req userID newID now)
  · intro req userID
    exact MessagesKept_of_subset _ _ (fun c hc => hc)
  · intro userID
    exact MessagesKept_of_subset _ _ (fun c hc => hc)
  · exact MessagesKept_of_subset _ _ (fun c hc => hc)
  · intro req userID c hc hne
    rcases UpdateCallStatus_chats db req userID with h | ⟨chat, _, h⟩
    · rw [h]; exact hc
    · rw [h, List.mem_map]
      exact ⟨c, hc, by rw [if_neg hne]⟩
  · intro req userID c hc
    rcases UpdateCallStatus_chats db req userID with h | ⟨chat, hid, h⟩
    · rw [h]; exact ⟨c, hc, rfl⟩
    · rw [h]
      refine ⟨_, List.mem_map.mpr ⟨c, hc, rfl⟩, ?_⟩
      by_cases hcid : c.ID = req.CallID
      · rw [if_pos hcid, hid, hcid]
      · rw [if_neg hcid]
  · intro req userID hex
    obtain ⟨chat, hres⟩ := UpdateCallStatus_found db req userID hex
    obtain ⟨c0, hc0, hid, hchat, hdb⟩ := UpdateCallStatus_ok db _ req userID chat hres
    have hcid : chat.ID = req.CallID := by
      rw [hchat, ← hid]
      split_ifs <;> rfl
    have htype : chat.MessageType = req.CallType := by
      rw [hchat]
      split_ifs <;> rfl
    refine ⟨chat, by rw [hres], hcid, htype, ?_, ?_, ?_, ?_⟩
    · intro hpos
      rw [hchat, if_pos hpos]
    · intro hnpos
      refine ⟨c0, hc0, hid, ?_⟩
      rw [hchat, if_neg hnpos]
    · rw [hdb, List.mem_map]
      exact ⟨c0, hc0, by rw [if_pos hid]⟩
    · intro c hc hcall
      rw [hdb, List.mem_map] at hc
      obtain ⟨x, _, hx⟩ := hc
      by_cases hxid : x.ID = req.CallID
      · rw [if_pos hxid] at hx
        exact hx.symm
      · rw [if_neg hxid] at hx
        rw [hx] at hxid
        exact absurd hcall hxid
  · intro req userID hno
    exact UpdateCallStatus_missing db req userID hno

/-- In a store with a text message (ID 6) next to the sample call (ID 5),
updating the call as a missed call of 61 seconds leaves the text message as it
was, keeps a message under ID 5, and that message now has the type
"missed_call" and the text "1 phút 1 giây". -/
theorem chat_operations_keep_messages_witness :
    (⟨⟨6⟩, ⟨1⟩, ⟨10⟩, ⟨11⟩, "hi", "text", 8⟩ : Chat) ∈
      (UpdateCallStatus ⟨[sampleRoom], [sampleCall, ⟨⟨6⟩, ⟨1⟩, ⟨10⟩, ⟨11⟩, "hi", "text", 8⟩]⟩
        ⟨⟨5⟩, ⟨1⟩, "missed_call", 61⟩ ⟨11⟩).2.chats ∧
    (∃ c1 ∈ (UpdateCallStatus
        ⟨[sampleRoom], [sampleCall, ⟨⟨6⟩, ⟨1⟩, ⟨10⟩, ⟨11⟩, "hi", "text", 8⟩]⟩
        ⟨⟨5⟩, ⟨1⟩, "missed_call", 61⟩ ⟨11⟩).2.chats, c1.ID = sampleCall.ID) ∧
    (∃ chat, (UpdateCallStatus
          ⟨[sampleRoom], [sampleCall, ⟨⟨6⟩, ⟨1⟩, ⟨10⟩, ⟨11⟩, "hi", "text", 8⟩]⟩
          ⟨⟨5⟩, ⟨1⟩, "missed_call", 61⟩ ⟨11⟩).1 = .ok chat ∧
        chat.ID = (UpdateCallStatusRequest.mk ⟨5⟩ ⟨1⟩ "missed_call" 61).CallID ∧
        chat.MessageType = (UpdateCallStatusRequest.mk ⟨5⟩ ⟨1⟩ "missed_call" 61).CallType ∧
        ((0 : Int) < (UpdateCallStatusRequest.mk ⟨5⟩ ⟨1⟩ "missed_call" 61).Duration →
          chat.Message
            = callDurationText (UpdateCallStatusRequest.mk ⟨5⟩ ⟨1⟩ "missed_call" 61).Duration) ∧
        (¬ (0 : Int) < (UpdateCallStatusRequest.mk ⟨5⟩ ⟨1⟩ "missed_call" 61).Duration →
          ∃ c0 ∈ (DB.mk [sampleRoom]
              [sampleCall, ⟨⟨6⟩, ⟨1⟩, ⟨10⟩, ⟨11⟩, "hi", "text", 8⟩]).chats,
            c0.ID = (UpdateCallStatusRequest.mk ⟨5⟩ ⟨1⟩ "missed_call" 61).CallID ∧
            chat.Message = c0.Message) ∧
        chat ∈ (UpdateCallStatus
          ⟨[sampleRoom], [sampleCall, ⟨⟨6⟩, ⟨1⟩, ⟨10⟩, ⟨11⟩, "hi", "text", 8⟩]⟩
          ⟨⟨5⟩, ⟨1⟩, "missed_call", 61⟩ ⟨11⟩).2.chats ∧
        (∀ c ∈ (UpdateCallStatus
            ⟨[sampleRoom], [sampleCall, ⟨⟨6⟩, ⟨1⟩, ⟨10⟩, ⟨11⟩, "hi", "text", 8⟩]⟩
            ⟨⟨5⟩, ⟨1⟩, "missed_call", 61⟩ ⟨11⟩).2.chats,
          c.ID = (UpdateCallStatusRequest.mk ⟨5⟩ ⟨1⟩ "missed_call" 61).CallID → c = chat)) ∧
    callDurationText 61 = "1 phút 1 giây" :=
  ⟨(chat_operations_keep_messages (fun _ => .error .InvalidUUID)
      ⟨[sampleRoom], [sampleCall, ⟨⟨6⟩, ⟨1⟩, ⟨10⟩, ⟨11⟩, "hi", "text", 8⟩]⟩).2.2.2.2.2.2.1
      ⟨⟨5⟩, ⟨1⟩, "missed_call", 61⟩ ⟨11⟩ _ (by decide) (by decide),
   (chat_operations_keep_messages (fun _ => .error .InvalidUUID)
      ⟨[sampleRoom], [sampleCall, ⟨⟨6⟩, ⟨1⟩, ⟨10⟩, ⟨11⟩, "hi", "text", 8⟩]⟩).2.2.2.2.2.2.2.1
      ⟨⟨5⟩, ⟨1⟩, "missed_call", 61⟩ ⟨11⟩ sampleCall (by decide),
   (chat_operations_keep_messages (fun _ => .error .InvalidUUID)
      ⟨[sampleRoom], [sampleCall, ⟨⟨6⟩, ⟨1⟩, ⟨10⟩, ⟨11⟩, "hi", "text", 8⟩]⟩).2.2.2.2.2.2.2.2.1
      ⟨⟨5⟩, ⟨1⟩, "missed_call", 61⟩ ⟨11⟩ ⟨sampleCall, by decide, by decide⟩,
   by decide⟩

/-! ## Properties: payment handlers -/

/-- C7: `LinkMomoWallet` refuses a user who has already linked a wallet. When
the payload converts and the user it names exists with `IsMomoLinked` true, the
handler answers with status 400 and never calls `PaymentService.LinkMomoWallet`.
In general the service is called only when payload conversion, binding,
validation and the user lookup all succeeded and the user is not yet linked, and
then with that user's ID and the requested wallet phone number. -/
theorem LinkMomoWallet_rejects_linked_user
    (payload : Except Error Payload) (bind : Except Error LinkMomoRequest)
    (validate : LinkMomoRequest → Except Error Unit)
    (getUserByID : UUID → Except Error User)
    (linkMomoWallet : UUID → String → Except Error MomoLinkResult)
    (data : Payload) (user : User)
    (hpayload : payload = .ok data) (huser : getUserByID data.UserID = .ok user)
    (hlinked : user.IsMomoLinked = true) :
    (PaymentController.LinkMomoWallet payload bind validate getUserByID linkMomoWallet).status
      = 400 ∧
    (∀ u w, ServiceCall.LinkMomoWallet u w ∉
      (PaymentController.LinkMomoWallet payload bind validate getUserByID linkMomoWallet).calls) ∧
    (∀ (payload1 : Except Error Payload) (bind1 : Except Error LinkMomoRequest)
        (validate1 : LinkMomoRequest → Except Error Unit)
        (getUserByID1 : UUID → Except Error User)
        (linkMomoWallet1 : UUID → String → Except Error MomoLinkResult) (u : UUID) (w : String),
      ServiceCall.LinkMomoWallet u w ∈
        (PaymentController.LinkMomoWallet payload1 bind1 validate1 getUserByID1
          linkMomoWallet1).calls →
      ∃ data1 req1 user1, payload1 = .ok data1 ∧ bind1 = .ok req1 ∧ validate1 req1 = .ok () ∧
        getUserByID1 data1.UserID = .ok user1 ∧ user1.IsMomoLinked = false ∧
        u = data1.UserID ∧ w = req1.WalletPhoneNumber) := by
  refine ⟨?_, ?_, ?_⟩
  · subst hpayload
    unfold PaymentController.LinkMomoWallet
    cases bind with
    | error e => rfl
    | ok req =>
      dsimp only
      cases validate req with
      | error e => rfl
      | ok _ =>
        dsimp only
        rw [huser]
        dsimp only
        rw [if_pos hlinked]
  · subst hpayload
    intro u w
    unfold PaymentController.LinkMomoWallet
    cases bind with
    | error e => simp
    | ok req =>
      dsimp only
      cases validate req with
      | error e => simp
      | ok _ =>
        dsimp only
        rw [huser]
        dsimp only
        rw [if_pos hlinked]
        simp
  · intro payload1 bind1 validate1 getUserByID1 linkMomoWallet1 u w hcall
    unfold PaymentController.LinkMomoWallet at hcall
    cases payload1 with
    | error e => simp at hcall
    | ok data1 =>
      cases bind1 with
      | error e => simp at hcall
      | ok req1 =>
        dsimp only at hcall
        cases hval : validate1 req1 with
        | error e => rw [hval] at hcall; simp at hcall
        | ok done =>
          rw [hval] at hcall
          dsimp only at hcall
          cases hget : getUserByID1 data1.UserID with
          | error e => rw [hget] at hcall; simp at hcall
          | ok user1 =>
            rw [hget] at hcall
            dsimp only at hcall
            by_cases hl : user1.IsMomoLinked = true
            · rw [if_pos hl] at hcall; simp at hcall
            · rw [if_neg hl] at hcall
              have hmem : ServiceCall.LinkMomoWallet u w ∈
                  [ServiceCall.GetUserByID data1.UserID,
                    ServiceCall.LinkMomoWallet data1.UserID req1.WalletPhoneNumber] := by
                cases hsvc : linkMomoWallet1 data1.UserID req1.WalletPhoneNumber with
                | error e => rw [hsvc] at hcall; exact hcall
                | ok momo => rw [hsvc] at hcall; exact hcall
              simp only [List.mem_cons, List.mem_singleton, ServiceCall.LinkMomoWallet.injEq,
                List.mem_nil_iff, or_false, false_or, reduceCtorEq] at hmem
              exact ⟨data1, req1, user1, rfl, rfl, hval, hget, by simpa using hl, hmem.1, hmem.2⟩

/-- A linked user asking to link again, with a well-formed body and a service
that would succeed: status 400, and the service is not called. -/
theorem LinkMomoWallet_rejects_linked_user_witness :
    (PaymentController.LinkMomoWallet (.ok ⟨⟨11⟩⟩) (.ok ⟨"0900000000"⟩) (fun _ => .ok ())
      (fun u => .ok ⟨u, true⟩) (fun _ _ => .ok ⟨"momo://link"⟩)).status = 400 ∧
    (∀ u w, ServiceCall.LinkMomoWallet u w ∉
      (PaymentController.LinkMomoWallet (.ok ⟨⟨11⟩⟩) (.ok ⟨"0900000000"⟩) (fun _ => .ok ())
        (fun u => .ok ⟨u, true⟩) (fun _ _ => .ok ⟨"momo://link"⟩)).calls) :=
  ⟨(LinkMomoWallet_rejects_linked_user (.ok ⟨⟨11⟩⟩) (.ok ⟨"0900000000"⟩) (fun _ => .ok ())
      (fun u => .ok ⟨u, true⟩) (fun _ _ => .ok ⟨"momo://link"⟩) ⟨⟨11⟩⟩ ⟨⟨11⟩, true⟩
      rfl rfl rfl).1,
   (LinkMomoWallet_rejects_linked_user (.ok ⟨⟨11⟩⟩) (.ok ⟨"0900000000"⟩) (fun _ => .ok ())
      (fun u => .ok ⟨u, true⟩) (fun _ _ => .ok ⟨"momo://link"⟩) ⟨⟨11⟩⟩ ⟨⟨11⟩, true⟩
      rfl rfl rfl).2.1⟩

/-- C4, as stated, fails: for a checkout whose payload, body and validation are
in order and whose `PaymentService.CheckoutRide` succeeds, the handler answers
200 with `nil` as data, not with a redirect or deeplink. -/
theorem CheckoutRide_returns_no_deeplink :
    PaymentController.CheckoutRide (.ok ⟨⟨11⟩⟩) (.ok (50000 : Nat)) (fun _ => .ok ())
        (fun _ _ => .ok ())
      = (200, .SuccessResponse .null "Checkout ride successfully"
          "Thanh toán chuyến đi thành công") ∧
    ¬ ∃ link en vi,
      (PaymentController.CheckoutRide (.ok ⟨⟨11⟩⟩) (.ok (50000 : Nat)) (fun _ => .ok ())
        (fun _ _ => .ok ())).2 = .SuccessResponse (.linkMomoWallet ⟨link⟩) en vi := by
  refine ⟨rfl, ?_⟩
  rintro ⟨link, en, vi, h⟩
  cases h

/-- C4, amended: for every checkout request whose payload converts, whose body
binds and validates, and for which `PaymentService.CheckoutRide` succeeds, the
handler answers with status 200 and a success response whose data is `nil`; the
service hands back nothing but an error value, so no redirect or deeplink
reaches the caller through this response. -/
theorem CheckoutRide_success_response {CheckoutRideRequest : Type}
    (payload : Except Error Payload) (bind : Except Error CheckoutRideRequest)
    (validate : CheckoutRideRequest → Except Error Unit)
    (checkoutRide : UUID → CheckoutRideRequest → Except Error Unit)
    (data : Payload) (req : CheckoutRideRequest)
    (hpayload : payload = .ok data) (hbind : bind = .ok req) (hvalid : validate req = .ok ())
    (hservice : checkoutRide data.UserID req = .ok ()) :
    PaymentController.CheckoutRide payload bind validate checkoutRide
      = (200, .SuccessResponse .null "Checkout ride successfully"
          "Thanh toán chuyến đi thành công") := by
  subst hpayload hbind
  unfold PaymentController.CheckoutRide
  dsimp only
  rw [hvalid]
  dsimp only
  rw [hservice]

/-- A checkout of 50000 by user 11 that the service accepts. -/
theorem CheckoutRide_success_response_witness :
    PaymentController.CheckoutRide (.ok ⟨⟨11⟩⟩) (.ok (50000 : Nat)) (fun _ => .ok ())
        (fun u _ => if u = ⟨11⟩ then .ok () else .error .ErrRecordNotFound)
      = (200, .SuccessResponse .null "Checkout ride successfully"
          "Thanh toán chuyến đi thành công") :=
  CheckoutRide_success_response (.ok ⟨⟨11⟩⟩) (.ok (50000 : Nat)) (fun _ => .ok ())
    (fun u _ => if u = ⟨11⟩ then .ok () else .error .ErrRecordNotFound) ⟨⟨11⟩⟩ 50000
    rfl rfl rfl (by decide)

/-! ## Properties: route thinning -/

/-- The loop of `OptimizeRoutePoints`: it never empties the list, keeps its first
point, and keeps every two neighbours at least the minimum distance apart. -/
theorem optimize_loop {Coord Dist : Type}
    (haversineDistance : Point Coord → Point Coord → Dist) (geMinDistance : Dist → Bool)
    (p0 : Point Coord) (rest : List (Point Coord)) :
    ∀ acc : List (Point Coord), acc ≠ [] →
      List.Chain' (fun a b => geMinDistance (haversineDistance a b) = true) acc →
      (rest.foldl (fun optimized p =>
          if geMinDistance (haversineDistance (optimized.getLastD p0) p) then optimized ++ [p]
          else optimized) acc) ≠ [] ∧
      (rest.foldl (fun optimized p =>
          if geMinDistance (haversineDistance (optimized.getLastD p0) p) then optimized ++ [p]
          else optimized) acc).head? = acc.head? ∧
      List.Chain' (fun a b => geMinDistance (haversineDistance a b) = true)
        (rest.foldl (fun optimized p =>
          if geMinDistance (haversineDistance (optimized.getLastD p0) p) then optimized ++ [p]
          else optimized) acc) := by
  induction rest with
  | nil => intro acc hne hchain; exact ⟨hne, rfl, hchain⟩
  | cons p ps ih =>
    intro acc hne hchain
    rw [List.foldl_cons]
    by_cases hfar : geMinDistance (haversineDistance (acc.getLastD p0) p) = true
    · rw [if_pos hfar]
      have hchain1 : List.Chain' (fun a b => geMinDistance (haversineDistance a b) = true)
          (acc ++ [p]) := by
        apply List.Chain'.append hchain (List.chain'_singleton p)
        intro x hx y hy
        rw [List.head?_cons, Option.mem_def, Option.some.injEq] at hy
        rw [Option.mem_def] at hx
        rw [List.getLastD_eq_getLast?, hx, Option.getD_some, hy] at hfar
        exact hfar
      obtain ⟨h1, h2, h3⟩ := ih (acc ++ [p]) (by simp) hchain1
      refine ⟨h1, ?_, h3⟩
      rw [h2]
      cases acc with
      | nil => exact absurd rfl hne
      | cons a t => rfl
    · rw [if_neg hfar]
      exact ih acc hne hchain

theorem getLast?_of_getLastD {α : Type} (l : List α) (d : α) (hne : l ≠ []) :
    l.getLast? = some (l.getLastD d) := by
  cases hl : l.getLast? with
  | none => exact absurd (List.getLast?_eq_none_iff.mp hl) hne
  | some x => rw [List.getLastD_eq_getLast?, hl, Option.getD_some]

/-- C8: `OptimizeRoutePoints` keeps the endpoints of the route. For every
non-empty list of points the result is non-empty, starts with the first point of
the input and ends with the last point of the input. -/
theorem OptimizeRoutePoints_keeps_endpoints {Coord Dist : Type} [DecidableEq Coord]
    (haversineDistance : Point Coord → Point Coord → Dist) (geMinDistance : Dist → Bool)
    (points : List (Point Coord)) (hne : points ≠ []) :
    OptimizeRoutePoints haversineDistance geMinDistance points ≠ [] ∧
    (OptimizeRoutePoints haversineDistance geMinDistance points).head? = points.head? ∧
    (OptimizeRoutePoints haversineDistance geMinDistance points).getLast? = points.getLast? := by
  match points, hne with
  | [p], _ => exact ⟨by simp [OptimizeRoutePoints], rfl, rfl⟩
  | p0 :: p1 :: rest, _ =>
    obtain ⟨h1, h2, _⟩ := optimize_loop haversineDistance geMinDistance p0 (p1 :: rest) [p0]
      (by simp) (List.chain'_singleton p0)
    unfold OptimizeRoutePoints
    dsimp only
    have hlast : (p0 :: p1 :: rest).getLast? = some ((p0 :: p1 :: rest).getLastD p0) :=
      getLast?_of_getLastD _ _ (by simp)
    split_ifs with hcmp
    · refine ⟨by simp, ?_, ?_⟩
      · rw [List.head?_append_of_ne_nil _ h1, h2]
        rfl
      · rw [List.getLast?_concat, hlast]
    · refine ⟨h1, ?_, ?_⟩
      · rw [h2]
        rfl
      · rw [getLast?_of_getLastD _ p0 h1, hlast]
        exact congrArg some (not_not.mp hcmp)

/-- The sample route thins to its first, third and last point. -/
theorem OptimizeRoutePoints_keeps_endpoints_witness :
    OptimizeRoutePoints gridDistance gridGeMin sampleRoute = [⟨0, 0⟩, ⟨20, 0⟩, ⟨22, 0⟩] ∧
    OptimizeRoutePoints gridDistance gridGeMin sampleRoute ≠ [] ∧
    (OptimizeRoutePoints gridDistance gridGeMin sampleRoute).head? = sampleRoute.head? ∧
    (OptimizeRoutePoints gridDistance gridGeMin sampleRoute).getLast? = sampleRoute.getLast? :=
  ⟨by decide, OptimizeRoutePoints_keeps_endpoints gridDistance gridGeMin sampleRoute (by decide)⟩

/-- C10: `OptimizeRoutePoints` enforces the minimum spacing. For every input of
at least two points, all consecutive points of the result except possibly the
final pair pass the test `haversineDistance >= minDistance`; and either the
final pair passes it too, or the result is a list with that spacing throughout
followed by the last input point, appended because the list did not end in it. -/
theorem OptimizeRoutePoints_min_spacing {Coord Dist : Type} [DecidableEq Coord]
    (haversineDistance : Point Coord → Point Coord → Dist) (geMinDistance : Dist → Bool)
    (points : List (Point Coord)) (hlen : 2 ≤ points.length) :
    List.Chain' (fun a b => geMinDistance (haversineDistance a b) = true)
      (OptimizeRoutePoints haversineDistance geMinDistance points).dropLast ∧
    (List.Chain' (fun a b => geMinDistance (haversineDistance a b) = true)
        (OptimizeRoutePoints haversineDistance geMinDistance points) ∨
      ∃ optimized last, points.getLast? = some last ∧ optimized.getLast? ≠ some last ∧
        OptimizeRoutePoints haversineDistance geMinDistance points = optimized ++ [last] ∧
        List.Chain' (fun a b => geMinDistance (haversineDistance a b) = true) optimized) := by
  match points, hlen with
  | p0 :: p1 :: rest, _ =>
    obtain ⟨h1, _, h3⟩ := optimize_loop haversineDistance geMinDistance p0 (p1 :: rest) [p0]
      (by simp) (List.chain'_singleton p0)
    unfold OptimizeRoutePoints
    dsimp only
    split_ifs with hcmp
    · refine ⟨?_, Or.inr ⟨_, _, getLast?_of_getLastD _ p0 (by simp), ?_, rfl, h3⟩⟩
      · rw [List.dropLast_concat]
        exact h3
      · rw [getLast?_of_getLastD _ p0 h1]
        intro heq
        exact hcmp (Option.some.inj heq)
    · refine ⟨?_, Or.inl h3⟩
      rw [List.dropLast_eq_take]
      exact h3.take _

/-- On the sample route the first two result points are twenty grid steps
apart; the final pair is two steps apart, the last point having been appended. -/
theorem OptimizeRoutePoints_min_spacing_witness :
    List.Chain' (fun a b => gridGeMin (gridDistance a b) = true)
      (OptimizeRoutePoints gridDistance gridGeMin sampleRoute).dropLast ∧
    (OptimizeRoutePoints gridDistance gridGeMin sampleRoute).dropLast = [⟨0, 0⟩, ⟨20, 0⟩] ∧
    gridGeMin (gridDistance ⟨20, 0⟩ ⟨22, 0⟩) = false :=
  ⟨(OptimizeRoutePoints_min_spacing gridDistance gridGeMin sampleRoute (by decide)).1,
    by decide, by decide⟩

end Shareway
